import Mathlib

/-!
Shallow embedding of `src/extratonupdf/extrato.py` (extratonupdf): a pipeline
that extracts transaction records (date, title, amount, category) from a bank
statement PDF.

Modelling conventions:
* The PDF library (pymupdf) is a black box per the design document; an opened
  document is modelled as a `Document`: its pages (each with the text that
  `page.get_text()` returns and the xref list that `page.get_image_info`
  reports, in order) and the byte content `extract_image` returns per xref.
* Python exceptions are modelled with `Except Err`; each `Err` constructor
  corresponds to one raise site / exception class in the source.
* Python `float` amounts are modelled as exact rationals `ℚ` (the decimal
  value the parsed string denotes).
* The regex character class `\d` is modelled as the ASCII digits `0-9` and
  `[A-Z]` as the ASCII uppercase letters, matching the statement texts the
  program is written for.
* Byte strings are `List Nat` (each element one byte).
-/

deriving instance DecidableEq for Except

namespace Extrato

/-- Python exceptions raised by the pipeline, one constructor per raise
site / exception class. -/
inductive Err where
  /-- `ValueError("Year not found in document")` in `_discover_year`. -/
  | yearNotFound : Err
  /-- Python `KeyError` from a dict subscript, carrying the missing key. -/
  | keyError : String → Err
  /-- `ValueError` from `datetime.date` on an invalid year/month/day. -/
  | invalidDate : Err
  /-- `ValueError` from `zip(..., strict=True)` on a length mismatch. -/
  | zipLengthMismatch : Err
  /-- `ValueError` from `float()` on a non-numeric literal. -/
  | floatValueError : Err
  deriving DecidableEq, Repr

/-- A calendar date as built by `datetime.date`. -/
structure Date where
  year : Int
  month : Nat
  day : Nat
  deriving DecidableEq, Repr

/-- Whether `y` is a leap year of the proleptic Gregorian calendar
(`datetime`'s calendar). -/
def isLeapYear (y : Int) : Bool :=
  (y % 4 == 0 && y % 100 != 0) || y % 400 == 0

/-- Number of days of month `m` of year `y` (Gregorian). -/
def daysInMonth (y : Int) (m : Nat) : Nat :=
  if m = 2 then (if isLeapYear y then 29 else 28)
  else if m = 4 ∨ m = 6 ∨ m = 9 ∨ m = 11 then 30
  else 31

/-- `datetime.date(year, month, day)`: validates the arguments
(`datetime.MINYEAR = 1`, `datetime.MAXYEAR = 9999`) and raises `ValueError`
on an invalid combination. -/
def mkDate (y : Int) (m : Nat) (d : Nat) : Except Err Date :=
  if 1 ≤ y ∧ y ≤ 9999 ∧ 1 ≤ m ∧ m ≤ 12 ∧ 1 ≤ d ∧ d ≤ daysInMonth y m then
    .ok ⟨y, m, d⟩
  else
    .error .invalidDate

/-- Value of a string of ASCII digit characters, as `int()` computes it. -/
def digitsToNat (l : List Char) : Nat :=
  l.foldl (fun a c => a * 10 + (c.toNat - 48)) 0

/-- The lines of a text, as the multiline regex anchors `^`/`$` delimit them:
split on every newline character. -/
def splitLines (s : String) : List (List Char) :=
  s.toList.splitOn '\n'

/-! ### Year discovery (`_discover_year`)

Source pattern: `_GET_YEAR_PATTERN = r'vencimento.*(\d{4})$'`, searched with
`re.search(..., re.UNICODE | re.MULTILINE)`.  Since `.` does not match a
newline, a match lives on a single line: the literal `vencimento` must occur
with its end at or before `length - 4`, and (after backtracking of the greedy
`.*`) the group `(\d{4})$` is exactly the last four characters of the line,
which must all be digits. -/

/-- Match of the year pattern against one line: `some group` with the
captured four-digit group, or `none` if the line has no match. -/
def yearLineMatch (l : List Char) : Option (List Char) :=
  let n := l.length
  if 4 ≤ n ∧ (l.drop (n - 4)).all Char.isDigit ∧
      "vencimento".toList <:+: l.take (n - 4) then
    some (l.drop (n - 4))
  else
    none

/-- `_discover_year`: first match of the year pattern over the text, its
four-digit group as an integer; `ValueError("Year not found in document")`
when no line matches. -/
def discoverYear (extratoText : String) : Except Err Int :=
  match (splitLines extratoText).findSome? yearLineMatch with
  | some grp => .ok (digitsToNat grp : Int)
  | none => .error .yearNotFound

/-- Spec-side reading of the year pattern, for claim C2: a line contains the
literal token `vencimento` followed by any characters and a four-digit number
anchored at the line end. -/
def SpecYearLine (l : List Char) : Prop :=
  ∃ pre mid d1 d2 d3 d4, l = pre ++ "vencimento".toList ++ mid ++ [d1, d2, d3, d4]
    ∧ d1.isDigit ∧ d2.isDigit ∧ d3.isDigit ∧ d4.isDigit

/-! ### Entry parsing (`_get_entries`)

Source pattern:
`_GET_ENTRY_PATTERN = r'^(\d\d) ([A-Z]{3})\n(.*)\n(.?)R\$ ([0-9.]+,\d\d)$'`,
used with `re.findall(..., re.UNICODE | re.MULTILINE)`.  Every match starts at
a line start (`^`) and spans three consecutive lines:
* line 1 is exactly two digits, a space and three uppercase letters (the `\n`
  right after the group anchors its end),
* line 2 is arbitrary (`(.*)` captures the whole line),
* line 3 is an optional single marker character, then `R$ `, then
  `[0-9.]+,\d\d` anchored at the line end.
`findall` returns the non-overlapping matches left to right; after a match
the scan resumes at the line after its third line. -/

/-- The `_MONTHS` dict: three-letter Portuguese month abbreviations. -/
def MONTHS : List (String × Nat) :=
  [("JAN", 1), ("FEV", 2), ("MAR", 3), ("ABR", 4), ("MAI", 5), ("JUN", 6),
   ("JUL", 7), ("AGO", 8), ("SET", 9), ("OUT", 10), ("NOV", 11), ("DEZ", 12)]

/-- `_MONTHS[code]`: dict subscript, `KeyError` when the key is absent. -/
def monthsLookup (code : String) : Except Err Nat :=
  match MONTHS.lookup code with
  | some m => .ok m
  | none => .error (.keyError code)

/-- The five capture groups of one match of the entry pattern, as the strings
`findall` returns. -/
structure RawEntry where
  day : String
  mon : String
  title : String
  marker : String
  amount : String
  deriving DecidableEq, Repr

/-- Match of `^(\d\d) ([A-Z]{3})\n` against a whole line: the line is exactly
two digits, a space and three uppercase letters. -/
def matchEntryLine1 (l : List Char) : Option (String × String) :=
  match l with
  | [a, b, ' ', x, y, z] =>
    if a.isDigit && b.isDigit && x.isUpper && y.isUpper && z.isUpper then
      some (⟨[a, b]⟩, ⟨[x, y, z]⟩)
    else none
  | _ => none

/-- Whether `l` matches `[0-9.]+,\d\d$`: a nonempty run of digits and dots,
a comma, and exactly two digits at the end. -/
def amountShape (l : List Char) : Bool :=
  match l.reverse with
  | b :: a :: ',' :: rest =>
    a.isDigit && b.isDigit && !rest.isEmpty
      && rest.all (fun c => c.isDigit || c = '.')
  | _ => false

/-- Match of `R\$ ([0-9.]+,\d\d)$` against `l`: the amount group when `l` is
`R$ ` followed by an amount-shaped tail reaching the line end. -/
def matchAmountTail (l : List Char) : Option String :=
  match l with
  | 'R' :: '$' :: ' ' :: rest => if amountShape rest then some ⟨rest⟩ else none
  | _ => none

/-- Match of `^(.?)R\$ ([0-9.]+,\d\d)$` against a whole line, giving the
(marker, amount) groups.  The greedy `.?` first takes one character and
backtracks to the empty match if the rest then fails. -/
def matchEntryLine3 (l : List Char) : Option (String × String) :=
  match l with
  | c :: rest =>
    match matchAmountTail rest with
    | some amt => some (⟨[c]⟩, amt)
    | none =>
      match matchAmountTail l with
      | some amt => some ("", amt)
      | none => none
  | [] => none

/-- Scan loop of `re.findall` for the entry pattern, with a structural fuel
argument (any fuel at least the number of lines gives the scan's value): on a
match the scan resumes after its three lines, otherwise at the next line. -/
def scanEntriesAux : Nat → List (List Char) → List RawEntry
  | fuel + 1, l1 :: l2 :: l3 :: rest =>
    match matchEntryLine1 l1, matchEntryLine3 l3 with
    | some (d, m), some (mk, amt) =>
      ⟨d, m, ⟨l2⟩, mk, amt⟩ :: scanEntriesAux fuel rest
    | _, _ => scanEntriesAux fuel (l2 :: l3 :: rest)
  | _, _ => []

/-- `re.findall` of the entry pattern over the text's lines: leftmost
non-overlapping matches. -/
def scanEntries (lines : List (List Char)) : List RawEntry :=
  scanEntriesAux lines.length lines

/-- `float(s)` on the strings reachable from the amount group after
`.replace('.', '').replace(',', '.')`: an optional integer part, an optional
dot and fractional part; at least one digit overall, nothing else.
Exponent/sign/space forms of the Python float grammar are never produced by
those replacements on a `[0-9.]+,\d\d` group and are omitted. -/
def pyFloat (l : List Char) : Except Err ℚ :=
  match l.splitOn '.' with
  | [ip] =>
    if !ip.isEmpty && ip.all Char.isDigit then .ok (digitsToNat ip)
    else .error .floatValueError
  | [ip, fp] =>
    if !(ip ++ fp).isEmpty && (ip ++ fp).all Char.isDigit then
      .ok (mkRat (digitsToNat ip * 10 ^ fp.length + digitsToNat fp) (10 ^ fp.length))
    else .error .floatValueError
  | _ => .error .floatValueError

/-- `float(entry[4].replace('.', '').replace(',', '.'))`: drop the thousand
separators, turn the decimal comma into a dot, parse as a number. -/
def parseAmount (s : String) : Except Err ℚ :=
  pyFloat ((s.toList.filter (· ≠ '.')).map (fun c => if c = ',' then '.' else c))

/-- The body of the `for entry in entries` loop of `_get_entries`: one
(date, title, value) row from one match's groups. -/
def parseEntry (year : Int) (e : RawEntry) : Except Err (Date × String × ℚ) := do
  let day := digitsToNat e.day.toList
  let month ← monthsLookup e.mon
  let entryYear : Int := if month ≠ 12 then year else year - 1
  let date ← mkDate entryYear month day
  let value ← parseAmount e.amount
  let value := if e.marker ≠ "" then -value else value
  return (date, e.title, value)

/-- `_get_entries`: every pattern match over the text, in document order,
turned into a (date, title, value) row; the first failing row's exception
propagates. -/
def getEntries (extratoText : String) (year : Int) :
    Except Err (List (Date × String × ℚ)) :=
  (scanEntries (splitLines extratoText)).mapM (parseEntry year)

/-! ### The document model and the image/category pipeline -/

/-- One PDF page, as the pipeline observes it: `page.get_text()` and the
xrefs of `page.get_image_info(xrefs=True)`, in the order the library reports
the images. -/
structure Page where
  text : String
  imageXrefs : List Nat
  deriving DecidableEq, Repr

/-- An opened PDF document: its pages in order, and, for each xref, the raw
image bytes `doc.extract_image(xref)['image']`. -/
structure Document where
  pages : List Page
  imageBytes : Nat → List Nat

/-- `zlib.adler32(bytes)`: running pair `(a, b)` starting at `(1, 0)`, each
byte updating `a := (a + byte) % 65521` then `b := (b + a) % 65521`; the
result is `b * 65536 + a`. -/
def adler32 (bytes : List Nat) : Nat :=
  let st := bytes.foldl
    (fun (ab : Nat × Nat) c =>
      ((ab.1 + c) % 65521, (ab.2 + (ab.1 + c) % 65521) % 65521))
    (1, 0)
  st.2 * 65536 + st.1

/-- One lowercase hexadecimal digit. -/
def hexDigit (n : Nat) : Char :=
  if n < 10 then Char.ofNat (48 + n) else Char.ofNat (87 + n)

/-- Minimal lowercase hexadecimal representation, with a structural fuel
argument (any fuel at least the number of leading digits gives the value). -/
def hexReprAux : Nat → Nat → List Char
  | 0, n => [hexDigit (n % 16)]
  | fuel + 1, n =>
    if n < 16 then [hexDigit n]
    else hexReprAux fuel (n / 16) ++ [hexDigit (n % 16)]

/-- Minimal lowercase hexadecimal representation of `n` (the digit count of
`n` never exceeds `n`, so `n` itself is enough fuel). -/
def hexRepr (n : Nat) : List Char :=
  hexReprAux n n

/-- `format(n, '08x')`: lowercase hexadecimal, left-padded with zeros to
eight characters. -/
def format08x (n : Nat) : String :=
  ⟨List.replicate (8 - (hexRepr n).length) '0' ++ hexRepr n⟩

/-- `_lightweight_hash`: adler32 of the bytes as an eight-hex-digit string. -/
def lightweightHash (bytes : List Nat) : String :=
  format08x (adler32 bytes)

/-- The `category_hashtable` dict of `_get_categories`: image checksum to
category name. -/
def categoryHashtable : List (String × String) :=
  [("7784104a", ""),
   ("fc279303", "eletrônicos"),
   ("11d5189d", "casa"),
   ("8b3caae0", "lazer"),
   ("cfeed549", "outros"),
   ("00fd45bb", "restaurante"),
   ("29637e8d", "saúde"),
   ("cc8dae95", "serviços"),
   ("c6ed8a46", "supermercado"),
   ("5c8d338d", "transporte"),
   ("5a84907b", "viagem")]

/-- `_TRANSACTIONS_START_PAGE`: zero-based index of the first page carrying
transactions. -/
def TRANSACTIONS_START_PAGE : Nat := 4

/-- `_get_categories_as_xrefs`: for each page index of
`range(_TRANSACTIONS_START_PAGE, len(doc))`, the page's reported images with
the first one discarded (`images_info[1:]`), their xrefs appended in
encounter order. -/
def getCategoriesAsXrefs (doc : Document) : List Nat :=
  (List.range' TRANSACTIONS_START_PAGE
      (doc.pages.length - TRANSACTIONS_START_PAGE)).foldl
    (fun acc pageNum => acc ++ ((doc.pages.getD pageNum ⟨"", []⟩).imageXrefs.drop 1))
    []

/-- `_get_hashes_by_xref`: a dict keyed by the distinct xrefs (`set(xrefs)`),
each mapped to the hash of its extracted image bytes; the bytes of each
distinct xref are hashed once. -/
def getHashesByXref (xrefs : List Nat) (doc : Document) : List (Nat × String) :=
  xrefs.dedup.map (fun x => (x, lightweightHash (doc.imageBytes x)))

/-- `_get_categories`: hashes of the collected xrefs in their original
encounter order (each read back from the dict), then each hash mapped through
`category_hashtable` with default `'?'`. -/
def getCategories (doc : Document) : Except Err (List String) := do
  let xrefs := getCategoriesAsXrefs doc
  let dict := getHashesByXref xrefs doc
  let hashes ← xrefs.mapM (fun x =>
    match dict.lookup x with
    | some h => Except.ok h
    | none => Except.error (Err.keyError (toString x)))
  return hashes.map (fun h => (categoryHashtable.lookup h).getD "?")

/-- `_get_text_from_pdf`: append each page's text to a list, join with the
empty separator. -/
def getTextFromPdf (doc : Document) : String :=
  let textParts : List String := doc.pages.foldl (fun acc p => acc ++ [p.text]) []
  String.join textParts

/-- Python `zip(a, b, strict=True)`, fully consumed: the positional pairs
when the lengths agree, `ValueError` otherwise. -/
def zipStrict {α β : Type} : List α → List β → Except Err (List (α × β))
  | [], [] => .ok []
  | a :: as, b :: bs => do
    let r ← zipStrict as bs
    return (a, b) :: r
  | _, _ => .error .zipLengthMismatch

/-- `pdf_to_table` on an opened document: text, year, entries, categories,
then the strict positional zip into (date, title, value, category) rows. -/
def pdfToTable (doc : Document) :
    Except Err (List (Date × String × ℚ × String)) := do
  let text := getTextFromPdf doc
  let year ← discoverYear text
  let table ← getEntries text year
  let categoryList ← getCategories doc
  let newTable ← zipStrict table categoryList
  return newTable.map (fun r => (r.1.1, r.1.2.1, r.1.2.2, r.2))

/-- One lowercase hexadecimal digit character: `0-9` or `a-f`. -/
def isLowerHexDigit (c : Char) : Bool :=
  c.isDigit || ('a' ≤ c && c ≤ 'f')

/-! ### Helper lemmas -/

theorem foldl_append_singleton {γ δ : Type} (f : γ → δ) :
    ∀ (l : List γ) (acc : List δ),
      l.foldl (fun a x => a ++ [f x]) acc = acc ++ l.map f
  | [], acc => by simp
  | x :: l, acc => by
    simp only [List.foldl_cons, List.map_cons]
    rw [foldl_append_singleton f l (acc ++ [f x])]
    simp

theorem zipStrict_eq_zip {α β : Type} :
    ∀ (as : List α) (bs : List β), as.length = bs.length →
      zipStrict as bs = .ok (as.zip bs)
  | [], [], _ => rfl
  | a :: as, b :: bs, h => by
    simp only [List.length_cons, Nat.add_right_cancel_iff] at h
    simp [zipStrict, zipStrict_eq_zip as bs h, Except.bind]
  | [], _ :: _, h => by simp at h
  | _ :: _, [], h => by simp at h

theorem zipStrict_mismatch {α β : Type} :
    ∀ (as : List α) (bs : List β), as.length ≠ bs.length →
      zipStrict as bs = .error .zipLengthMismatch
  | [], [], h => absurd rfl h
  | a :: as, b :: bs, h => by
    simp only [List.length_cons, ne_eq, Nat.add_right_cancel_iff] at h
    simp [zipStrict, zipStrict_mismatch as bs h, Except.bind]
  | [], _ :: _, _ => rfl
  | _ :: _, [], _ => rfl

theorem lookup_map_pair {α β : Type} [DecidableEq α] (f : α → β) :
    ∀ (l : List α) (x : α), x ∈ l →
      (l.map (fun y => (y, f y))).lookup x = some (f x)
  | [], x, hx => absurd hx (List.not_mem_nil x)
  | y :: l, x, hx => by
    simp only [List.map_cons, List.lookup_cons]
    by_cases hxy : x = y
    · subst hxy; simp
    · have : x ∈ l := by
        rcases List.mem_cons.mp hx with h | h
        · exact absurd h hxy
        · exact h
      have hbeq : (x == y) = false := beq_eq_false_iff_ne.mpr hxy
      simp [hbeq, lookup_map_pair f l x this]

theorem mapM_ok {α β : Type} (g : α → Except Err β) (f : α → β) :
    ∀ l : List α, (∀ x ∈ l, g x = .ok (f x)) →
      l.mapM g = .ok (l.map f)
  | [], _ => rfl
  | x :: l, h => by
    rw [List.mapM_cons, h x (List.mem_cons_self x l),
      mapM_ok g f l (fun y hy => h y (List.mem_cons_of_mem x hy))]
    rfl

theorem getTextFromPdf_join (doc : Document) :
    getTextFromPdf doc = String.join (doc.pages.map Page.text) := by
  unfold getTextFromPdf
  rw [foldl_append_singleton Page.text doc.pages []]
  rfl

theorem range'_foldl_xrefs (pages : List Page) :
    ∀ (m k : Nat) (acc : List Nat), m = pages.length - k →
      (List.range' k m).foldl
          (fun acc i => acc ++ ((pages.getD i ⟨"", []⟩).imageXrefs.drop 1)) acc
        = acc ++ (pages.drop k).flatMap (fun p => p.imageXrefs.drop 1)
  | 0, k, acc, hm => by
    have : pages.length ≤ k := by omega
    simp [List.drop_eq_nil_of_le this]
  | m + 1, k, acc, hm => by
    have hk : k < pages.length := by omega
    rw [List.range'_succ, List.foldl_cons,
      range'_foldl_xrefs pages m (k + 1) _ (by omega),
      List.drop_eq_getElem_cons hk, List.flatMap_cons,
      List.getD_eq_getElem pages ⟨"", []⟩ hk, List.append_assoc]

theorem getCategoriesAsXrefs_eq (doc : Document) :
    getCategoriesAsXrefs doc
      = (doc.pages.drop TRANSACTIONS_START_PAGE).flatMap
          (fun p => p.imageXrefs.drop 1) := by
  unfold getCategoriesAsXrefs
  rw [range'_foldl_xrefs doc.pages _ TRANSACTIONS_START_PAGE [] rfl]
  rfl

theorem getHashesByXref_lookup (xrefs : List Nat) (doc : Document) (x : Nat)
    (hx : x ∈ xrefs) :
    (getHashesByXref xrefs doc).lookup x
      = some (lightweightHash (doc.imageBytes x)) :=
  lookup_map_pair (fun y => lightweightHash (doc.imageBytes y)) xrefs.dedup x
    (List.mem_dedup.mpr hx)

theorem getCategories_eq (doc : Document) :
    getCategories doc
      = .ok ((getCategoriesAsXrefs doc).map (fun x =>
          (categoryHashtable.lookup (lightweightHash (doc.imageBytes x))).getD "?")) := by
  have hmapM := mapM_ok
    (fun x =>
      match (getHashesByXref (getCategoriesAsXrefs doc) doc).lookup x with
      | some h => Except.ok h
      | none => Except.error (Err.keyError (toString x)))
    (fun x => lightweightHash (doc.imageBytes x)) (getCategoriesAsXrefs doc)
    (fun x hx => by simp [getHashesByXref_lookup (getCategoriesAsXrefs doc) doc x hx])
  have hdef : getCategories doc
      = Except.bind
          (List.mapM (fun x =>
            match (getHashesByXref (getCategoriesAsXrefs doc) doc).lookup x with
            | some h => Except.ok h
            | none => Except.error (Err.keyError (toString x)))
            (getCategoriesAsXrefs doc))
          (fun hashes => Except.pure
            (hashes.map (fun h => (categoryHashtable.lookup h).getD "?"))) := rfl
  rw [hdef, hmapM]
  show Except.ok
      (((getCategoriesAsXrefs doc).map (fun x => lightweightHash (doc.imageBytes x))).map
        (fun h => (categoryHashtable.lookup h).getD "?")) = _
  rw [List.map_map]
  rfl

theorem adler32_foldl_bound (l : List Nat) :
    ∀ ab : Nat × Nat, ab.1 < 65521 → ab.2 < 65521 →
      (l.foldl
        (fun (ab : Nat × Nat) c =>
          ((ab.1 + c) % 65521, (ab.2 + (ab.1 + c) % 65521) % 65521)) ab).1 < 65521
      ∧ (l.foldl
        (fun (ab : Nat × Nat) c =>
          ((ab.1 + c) % 65521, (ab.2 + (ab.1 + c) % 65521) % 65521)) ab).2 < 65521 := by
  induction l with
  | nil => intro ab h1 h2; exact ⟨h1, h2⟩
  | cons c l ih =>
    intro ab h1 h2
    exact ih _ (Nat.mod_lt _ (by omega)) (Nat.mod_lt _ (by omega))

theorem adler32_lt (bytes : List Nat) : adler32 bytes < 4294967296 := by
  have h := adler32_foldl_bound bytes (1, 0) (by omega) (by omega)
  show (bytes.foldl
      (fun (ab : Nat × Nat) c =>
        ((ab.1 + c) % 65521, (ab.2 + (ab.1 + c) % 65521) % 65521)) (1, 0)).2 * 65536
    + (bytes.foldl
      (fun (ab : Nat × Nat) c =>
        ((ab.1 + c) % 65521, (ab.2 + (ab.1 + c) % 65521) % 65521)) (1, 0)).1
    < 4294967296
  omega

theorem hexReprAux_length (fuel : Nat) :
    ∀ n k : Nat, 1 ≤ k → n < 16 ^ k → (hexReprAux fuel n).length ≤ k := by
  induction fuel with
  | zero => intro n k hk _; simpa using hk
  | succ f ih =>
    intro n k hk hn
    unfold hexReprAux
    by_cases h16 : n < 16
    · simpa [h16] using hk
    · have hk2 : 2 ≤ k := by
        by_contra hlt
        have : k = 1 := by omega
        subst this
        simp at hn
        omega
      have hdiv : n / 16 < 16 ^ (k - 1) := by
        rw [Nat.div_lt_iff_lt_mul (by omega)]
        have : 16 ^ (k - 1) * 16 = 16 ^ k := by
          rw [← pow_succ]
          congr 1
          omega
        omega
      have := ih (n / 16) (k - 1) (by omega) hdiv
      simp only [h16, if_false, List.length_append, List.length_cons,
        List.length_nil]
      omega

theorem hexDigit_lower (m : Nat) (hm : m < 16) :
    isLowerHexDigit (hexDigit m) = true := by
  revert hm
  revert m
  decide

theorem hexReprAux_lower (fuel : Nat) :
    ∀ n : Nat, (hexReprAux fuel n).all isLowerHexDigit = true := by
  induction fuel with
  | zero =>
    intro n
    simp [hexReprAux, hexDigit_lower (n % 16) (Nat.mod_lt _ (by omega))]
  | succ f ih =>
    intro n
    unfold hexReprAux
    by_cases h16 : n < 16
    · simp [h16, hexDigit_lower n h16]
    · simp [h16, ih (n / 16), hexDigit_lower (n % 16) (Nat.mod_lt _ (by omega))]

theorem format08x_length (n : Nat) (hn : n < 4294967296) :
    (format08x n).length = 8 := by
  have hle : (hexRepr n).length ≤ 8 :=
    hexReprAux_length n n 8 (by omega) (by norm_num at hn ⊢; omega)
  show (List.replicate (8 - (hexRepr n).length) '0' ++ hexRepr n).length = 8
  simp only [List.length_append, List.length_replicate]
  omega

theorem format08x_lower (n : Nat) :
    (format08x n).toList.all isLowerHexDigit = true := by
  show (List.replicate (8 - (hexRepr n).length) '0' ++ hexRepr n).all isLowerHexDigit = true
  rw [List.all_append]
  have h1 : (List.replicate (8 - (hexRepr n).length) '0').all isLowerHexDigit = true := by
    rw [List.all_eq_true]
    intro c hc
    rw [List.eq_of_mem_replicate hc]
    decide
  have h2 : (hexRepr n).all isLowerHexDigit = true := hexReprAux_lower n n
  rw [h1, h2]
  rfl

theorem length_four_decomp (l : List Char) (h : l.length = 4) :
    ∃ a b c d, l = [a, b, c, d] := by
  match l, h with
  | [a, b, c, d], _ => exact ⟨a, b, c, d, rfl⟩

theorem yearLineMatch_some_iff (l : List Char) (g : List Char) :
    yearLineMatch l = some g ↔ SpecYearLine l ∧ g = l.drop (l.length - 4) := by
  unfold yearLineMatch
  by_cases hc : 4 ≤ l.length ∧ (l.drop (l.length - 4)).all Char.isDigit ∧
      "vencimento".toList <:+: l.take (l.length - 4)
  · rw [if_pos hc]
    obtain ⟨hlen, hdig, hinf⟩ := hc
    constructor
    · intro hg
      refine ⟨?_, (Option.some_inj.mp hg).symm⟩
      obtain ⟨s, t, hst⟩ := hinf
      have hdropLen : (l.drop (l.length - 4)).length = 4 := by
        rw [List.length_drop]
        omega
      obtain ⟨d1, d2, d3, d4, hdecomp⟩ := length_four_decomp _ hdropLen
      have hall := List.all_eq_true.mp hdig
      refine ⟨s, t, d1, d2, d3, d4, ?_, ?_, ?_, ?_, ?_⟩
      · rw [← List.take_append_drop (l.length - 4) l, ← hst, hdecomp]
      · exact hall d1 (by rw [hdecomp]; simp)
      · exact hall d2 (by rw [hdecomp]; simp)
      · exact hall d3 (by rw [hdecomp]; simp)
      · exact hall d4 (by rw [hdecomp]; simp)
    · intro ⟨_, hg⟩
      rw [hg]
  · rw [if_neg hc]
    constructor
    · intro h
      exact Option.noConfusion h
    · intro ⟨⟨pre, mid, d1, d2, d3, d4, hdecomp, h1, h2, h3, h4⟩, _⟩
      exfalso
      apply hc
      have hv : ("vencimento".toList).length = 10 := rfl
      have hlen : l.length = pre.length + 10 + mid.length + 4 := by
        subst hdecomp
        simp [List.length_append, hv]
        omega
      have hpre : l.length - 4 = (pre ++ "vencimento".toList ++ mid).length := by
        simp [List.length_append, hv]
        omega
      refine ⟨by omega, ?_, ?_⟩
      · have : l.drop (l.length - 4) = [d1, d2, d3, d4] := by
          rw [hpre, hdecomp]
          rw [show pre ++ "vencimento".toList ++ mid ++ [d1, d2, d3, d4]
              = (pre ++ "vencimento".toList ++ mid) ++ [d1, d2, d3, d4] by
            simp [List.append_assoc]]
          exact List.drop_left _ _
        rw [this]
        simp [h1, h2, h3, h4]
      · have : l.take (l.length - 4) = pre ++ "vencimento".toList ++ mid := by
          rw [hpre, hdecomp]
          rw [show pre ++ "vencimento".toList ++ mid ++ [d1, d2, d3, d4]
              = (pre ++ "vencimento".toList ++ mid) ++ [d1, d2, d3, d4] by
            simp [List.append_assoc]]
          exact List.take_left _ _
        rw [this]
        exact ⟨pre, mid, by simp [List.append_assoc]⟩

theorem yearLineMatch_none_iff (l : List Char) :
    yearLineMatch l = none ↔ ¬ SpecYearLine l := by
  constructor
  · intro h hspec
    have := (yearLineMatch_some_iff l (l.drop (l.length - 4))).mpr ⟨hspec, rfl⟩
    rw [h] at this
    exact Option.noConfusion this
  · intro hspec
    cases hy : yearLineMatch l with
    | none => rfl
    | some g =>
      exact absurd ((yearLineMatch_some_iff l g).mp hy).1 hspec

theorem findSome_yearLine (lines : List (List Char)) :
    (lines.findSome? yearLineMatch = none ↔ ∀ l ∈ lines, ¬ SpecYearLine l)
    ∧ ∀ g, lines.findSome? yearLineMatch = some g →
        ∃ pre post lm, lines = pre ++ lm :: post ∧ SpecYearLine lm
          ∧ (∀ l ∈ pre, ¬ SpecYearLine l)
          ∧ g = lm.drop (lm.length - 4) := by
  induction lines with
  | nil => simp
  | cons l ls ih =>
    rw [List.findSome?_cons]
    cases hy : yearLineMatch l with
    | some g0 =>
      obtain ⟨hspec, hg⟩ := (yearLineMatch_some_iff l g0).mp hy
      constructor
      · simp only [Option.some_ne_none, false_iff]
        intro hall
        exact hall l (List.mem_cons_self l ls) hspec
      · intro g hg0
        rw [Option.some_inj] at hg0
        subst hg0
        exact ⟨[], ls, l, rfl, hspec, by simp, hg⟩
    | none =>
      have hnospec := (yearLineMatch_none_iff l).mp hy
      constructor
      · rw [ih.1]
        constructor
        · intro hall l' hl'
          rcases List.mem_cons.mp hl' with h | h
          · subst h; exact hnospec
          · exact hall l' h
        · intro hall l' hl'
          exact hall l' (List.mem_cons_of_mem l hl')
      · intro g hg
        obtain ⟨pre, post, lm, hsplit, hspec, hpre, hgrp⟩ := ih.2 g hg
        refine ⟨l :: pre, post, lm, by rw [hsplit]; rfl, hspec, ?_, hgrp⟩
        intro l' hl'
        rcases List.mem_cons.mp hl' with h | h
        · subst h; exact hnospec
        · exact hpre l' h

theorem mkDate_ok (y : Int) (m d : Nat) (dt : Date) (h : mkDate y m d = .ok dt) :
    dt = ⟨y, m, d⟩ := by
  unfold mkDate at h
  by_cases hc : 1 ≤ y ∧ y ≤ 9999 ∧ 1 ≤ m ∧ m ≤ 12 ∧ 1 ≤ d ∧ d ≤ daysInMonth y m
  · rw [if_pos hc] at h
    exact (Except.ok.inj h).symm
  · rw [if_neg hc] at h
    exact Except.noConfusion h

theorem parseEntry_inv (year : Int) (e : RawEntry) (d : Date) (t : String) (v : ℚ)
    (hp : parseEntry year e = .ok (d, t, v)) :
    ∃ m q, monthsLookup e.mon = .ok m
      ∧ parseAmount e.amount = .ok q
      ∧ mkDate (if m ≠ 12 then year else year - 1) m (digitsToNat e.day.toList) = .ok d
      ∧ t = e.title
      ∧ v = (if e.marker ≠ "" then -q else q) := by
  have hstep : parseEntry year e
      = Except.bind (monthsLookup e.mon) (fun month =>
          Except.bind
            (mkDate (if month ≠ 12 then year else year - 1) month
              (digitsToNat e.day.toList))
            (fun date => Except.bind (parseAmount e.amount) (fun value =>
              Except.pure
                (date, e.title, if e.marker ≠ "" then -value else value)))) := rfl
  rw [hstep] at hp
  cases hm : monthsLookup e.mon with
  | error err => rw [hm] at hp; simp [Except.bind] at hp
  | ok m =>
    rw [hm] at hp
    simp only [Except.bind] at hp
    cases hmk : mkDate (if m ≠ 12 then year else year - 1) m (digitsToNat e.day.toList) with
    | error err => rw [hmk] at hp; simp at hp
    | ok date =>
      rw [hmk] at hp
      simp only at hp
      cases hpa : parseAmount e.amount with
      | error err => rw [hpa] at hp; simp at hp
      | ok q =>
        rw [hpa] at hp
        simp only [Except.pure] at hp
        have htup : (date, e.title, if e.marker ≠ "" then -q else q) = (d, t, v) :=
          Except.ok.inj hp
        have h1 : date = d := congrArg (fun p => p.1) htup
        have h2 : e.title = t := congrArg (fun p => p.2.1) htup
        have h3 : (if e.marker ≠ "" then -q else q) = v := congrArg (fun p => p.2.2) htup
        exact ⟨m, q, rfl, rfl, h1 ▸ hmk, h2.symm, h3.symm⟩

theorem pdfToTable_unfold (doc : Document) (y : Int)
    (table : List (Date × String × ℚ)) (cats : List String)
    (hy : discoverYear (getTextFromPdf doc) = .ok y)
    (he : getEntries (getTextFromPdf doc) y = .ok table)
    (hc : getCategories doc = .ok cats) :
    pdfToTable doc
      = Except.bind (zipStrict table cats)
          (fun nt => Except.pure (nt.map (fun r => (r.1.1, r.1.2.1, r.1.2.2, r.2)))) := by
  show Except.bind (discoverYear (getTextFromPdf doc)) _ = _
  rw [hy]
  show Except.bind (getEntries (getTextFromPdf doc) y) _ = _
  rw [he]
  show Except.bind (getCategories doc) _ = _
  rw [hc]
  rfl

/-! ### Claim theorems -/

/-- C2: year discovery scans the text's lines for the literal token
`vencimento` followed by any characters and a four-digit number anchored at
the line end; when a match exists it returns the first matching line's
four-digit group as an integer, and when none exists it fails with the
explicit, named year-not-found error rather than a generic indexing error. -/
theorem c2_year_discovery (text : String) :
    (discoverYear text = .error .yearNotFound ↔ ∀ l ∈ splitLines text, ¬ SpecYearLine l)
    ∧ ∀ y : Int, discoverYear text = .ok y →
        ∃ pre post lm, splitLines text = pre ++ lm :: post ∧ SpecYearLine lm
          ∧ (∀ l ∈ pre, ¬ SpecYearLine l)
          ∧ y = (digitsToNat (lm.drop (lm.length - 4)) : Int) := by
  obtain ⟨hnone, hsome⟩ := findSome_yearLine (splitLines text)
  constructor
  · rw [← hnone]
    unfold discoverYear
    cases hf : (splitLines text).findSome? yearLineMatch with
    | none => simp
    | some g => simp
  · intro y hy
    unfold discoverYear at hy
    cases hf : (splitLines text).findSome? yearLineMatch with
    | none => rw [hf] at hy; exact Except.noConfusion hy
    | some g =>
      rw [hf] at hy
      obtain ⟨pre, post, lm, hsplit, hspec, hpre, hgrp⟩ := hsome g hf
      refine ⟨pre, post, lm, hsplit, hspec, hpre, ?_⟩
      have : (digitsToNat g : Int) = y := Except.ok.inj hy
      rw [← this, hgrp]

/-- C2 witness: concrete text with a `vencimento` line ending in `2025`. -/
theorem c2_year_discovery_witness :
    ∃ pre post lm,
      splitLines "extrato\ndata de vencimento: 10/05/2025\nfim" = pre ++ lm :: post
      ∧ SpecYearLine lm
      ∧ (∀ l ∈ pre, ¬ SpecYearLine l)
      ∧ (2025 : Int) = (digitsToNat (lm.drop (lm.length - 4)) : Int) :=
  (c2_year_discovery "extrato\ndata de vencimento: 10/05/2025\nfim").2 2025 (by decide)

/-- C5: the category pipeline walks pages from fixed index 4 to the end,
discards each such page's first reported image, collects the remaining xrefs
in encounter order, hashes bytes once per distinct xref, and maps every
collected xref (in the original order) through its hash to a label of the
static table, `'?'` when unmapped — one label per collected xref. -/
theorem c5_category_pipeline (doc : Document) :
    getCategoriesAsXrefs doc
      = (doc.pages.drop TRANSACTIONS_START_PAGE).flatMap (fun p => p.imageXrefs.drop 1)
    ∧ (getHashesByXref (getCategoriesAsXrefs doc) doc).map Prod.fst
        = (getCategoriesAsXrefs doc).dedup
    ∧ ((getHashesByXref (getCategoriesAsXrefs doc) doc).map Prod.fst).Nodup
    ∧ getCategories doc
      = .ok ((getCategoriesAsXrefs doc).map (fun x =>
          (categoryHashtable.lookup (lightweightHash (doc.imageBytes x))).getD "?")) := by
  have hcomp : (Prod.fst ∘ fun x : Nat => (x, lightweightHash (doc.imageBytes x)))
      = fun x : Nat => x := rfl
  refine ⟨getCategoriesAsXrefs_eq doc, ?_, ?_, getCategories_eq doc⟩
  · unfold getHashesByXref
    rw [List.map_map, hcomp]
    simp
  · unfold getHashesByXref
    rw [List.map_map, hcomp]
    simpa using List.nodup_dedup (getCategoriesAsXrefs doc)

/-- C7: the image hash is the adler32 checksum of the raw bytes, below
`2^32`, formatted as a lowercase eight-hex-digit string, and the static table
maps the checksum `fc279303` exactly to `eletrônicos`. -/
theorem c7_lightweight_hash (bytes : List Nat) :
    lightweightHash bytes = format08x (adler32 bytes)
    ∧ adler32 bytes < 4294967296
    ∧ (lightweightHash bytes).length = 8
    ∧ (lightweightHash bytes).toList.all isLowerHexDigit = true
    ∧ categoryHashtable.lookup "fc279303" = some "eletrônicos" :=
  ⟨rfl, adler32_lt bytes, format08x_length (adler32 bytes) (adler32_lt bytes),
    format08x_lower (adler32 bytes), by decide⟩

/-- C8: the pipeline is a deterministic function of the document's contents:
two documents with the same pages and the same image bytes produce the same
output, so a second run on the same input yields an identical result. -/
theorem c8_deterministic (d1 d2 : Document) (hp : d1.pages = d2.pages)
    (hb : d1.imageBytes = d2.imageBytes) : pdfToTable d1 = pdfToTable d2 := by
  cases d1
  cases d2
  cases hp
  cases hb
  rfl

/-- C8 witness: the same concrete document run twice. -/
theorem c8_deterministic_witness :
    pdfToTable ⟨[⟨"vencimento 2025\n", []⟩, ⟨"", []⟩, ⟨"", []⟩, ⟨"", []⟩,
        ⟨"01 JAN\nalmoço\nR$ 10,00", [7, 8]⟩], fun _ => []⟩
      = pdfToTable ⟨[⟨"vencimento 2025\n", []⟩, ⟨"", []⟩, ⟨"", []⟩, ⟨"", []⟩,
        ⟨"01 JAN\nalmoço\nR$ 10,00", [7, 8]⟩], fun _ => []⟩ :=
  c8_deterministic _ _ rfl rfl

/-- C9: text extraction returns the concatenation of every page's text in
page order, with no separator inserted between pages. -/
theorem c9_text_concatenation (doc : Document) :
    getTextFromPdf doc = String.join (doc.pages.map Page.text)
    ∧ getTextFromPdf doc = (doc.pages.map Page.text).foldl (fun a s => a ++ s) "" :=
  ⟨getTextFromPdf_join doc, getTextFromPdf_join doc⟩

/-- C1: the assembler pairs the parsed-entry list and the category list 1:1
by index: with equal lengths `pdf_to_table` returns exactly that many
(date, title, value, category) tuples, the i-th entry paired with the i-th
category; with differing lengths it raises an error instead of silently
truncating or padding. -/
theorem c1_assembly_pairs_by_index (doc : Document) (y : Int)
    (table : List (Date × String × ℚ)) (cats : List String)
    (hy : discoverYear (getTextFromPdf doc) = .ok y)
    (he : getEntries (getTextFromPdf doc) y = .ok table)
    (hc : getCategories doc = .ok cats) :
    (table.length = cats.length →
      ∃ out, pdfToTable doc = .ok out ∧ out.length = table.length ∧
        ∀ (i : Nat) (h1 : i < table.length) (h2 : i < cats.length),
          out[i]? = some ((table.get ⟨i, h1⟩).1, (table.get ⟨i, h1⟩).2.1,
            (table.get ⟨i, h1⟩).2.2, cats.get ⟨i, h2⟩))
    ∧ (table.length ≠ cats.length → pdfToTable doc = .error .zipLengthMismatch) := by
  have hpdf := pdfToTable_unfold doc y table cats hy he hc
  constructor
  · intro hlen
    refine ⟨(table.zip cats).map (fun r => (r.1.1, r.1.2.1, r.1.2.2, r.2)), ?_, ?_, ?_⟩
    · rw [hpdf, zipStrict_eq_zip table cats hlen]
      rfl
    · rw [List.length_map, List.length_zip, hlen, Nat.min_self]
    · intro i h1 h2
      have hiz : i < ((table.zip cats).map
          (fun r => (r.1.1, r.1.2.1, r.1.2.2, r.2))).length := by
        rw [List.length_map, List.length_zip]
        omega
      rw [List.getElem?_eq_getElem hiz, List.getElem_map, List.getElem_zip,
        Option.some_inj]
      simp [List.get_eq_getElem]
  · intro hlen
    rw [hpdf, zipStrict_mismatch table cats hlen]
    rfl

/-- C1 witness: a five-page document with one parsed entry and one category
icon, assembled into one four-tuple. -/
theorem c1_assembly_pairs_by_index_witness :
    ∃ out,
      pdfToTable ⟨[⟨"vencimento 2025\n", []⟩, ⟨"", []⟩, ⟨"", []⟩, ⟨"", []⟩,
        ⟨"01 JAN\nalmoço\nR$ 10,00", [7, 8]⟩], fun _ => []⟩ = .ok out
      ∧ out.length = 1
      ∧ out[0]? = some (⟨2025, 1, 1⟩, "almoço", 10, "?") := by
  obtain ⟨out, h1, h2, h3⟩ :=
    (c1_assembly_pairs_by_index
      ⟨[⟨"vencimento 2025\n", []⟩, ⟨"", []⟩, ⟨"", []⟩, ⟨"", []⟩,
        ⟨"01 JAN\nalmoço\nR$ 10,00", [7, 8]⟩], fun _ => []⟩
      2025 [(⟨2025, 1, 1⟩, "almoço", 10)] ["?"]
      (by decide) (by decide) (by decide)).1 (by decide)
  exact ⟨out, h1, by simpa using h2, by simpa using h3 0 (by decide) (by decide)⟩

/-- C3: a parsed entry's year is the discovered year, except that December
(month 12) uses the discovered year minus one; with discovered year 2025 the
entry `15 DEZ` gets date 2024-12-15 and `03 JAN` gets date 2025-01-03. -/
theorem c3_december_previous_year (year : Int) (e : RawEntry) (m : Nat)
    (d : Date) (t : String) (v : ℚ)
    (hm : monthsLookup e.mon = .ok m)
    (hp : parseEntry year e = .ok (d, t, v)) :
    (d.year = (if m = 12 then year - 1 else year) ∧ d.month = m)
    ∧ getEntries "15 DEZ\ncompra\nR$ 1,00" 2025 = .ok [(⟨2024, 12, 15⟩, "compra", 1)]
    ∧ getEntries "03 JAN\ncompra\nR$ 1,00" 2025 = .ok [(⟨2025, 1, 3⟩, "compra", 1)] := by
  refine ⟨?_, by decide, by decide⟩
  obtain ⟨m', q, hm', _, hmk, _, _⟩ := parseEntry_inv year e d t v hp
  have hmm : m' = m := Except.ok.inj (hm'.symm.trans hm)
  subst hmm
  have hd := mkDate_ok _ _ _ _ hmk
  subst hd
  constructor
  · by_cases h12 : m' = 12
    · simp [h12]
    · simp [h12]
  · rfl

/-- C3 witness: the general December rule applied to the `15 DEZ` entry with
discovered year 2025. -/
theorem c3_december_previous_year_witness :
    ((⟨2024, 12, 15⟩ : Date).year = (if 12 = 12 then (2025 : Int) - 1 else 2025)
      ∧ (⟨2024, 12, 15⟩ : Date).month = 12)
    ∧ getEntries "15 DEZ\ncompra\nR$ 1,00" 2025 = .ok [(⟨2024, 12, 15⟩, "compra", 1)]
    ∧ getEntries "03 JAN\ncompra\nR$ 1,00" 2025 = .ok [(⟨2025, 1, 3⟩, "compra", 1)] :=
  c3_december_previous_year 2025 ⟨"15", "DEZ", "compra", "", "1,00"⟩ 12
    ⟨2024, 12, 15⟩ "compra" 1 (by decide) (by decide)

/-- C4: the parsed value equals the captured numeric string with `.` removed
and `,` replaced by `.`, read as a decimal number, negated exactly when the
optional marker character was present (non-empty): `1.234,56` parses to
1234.56, with the marker to -1234.56, and `10,00` to 10. -/
theorem c4_amount_parsing (year : Int) (e : RawEntry) (d : Date) (t : String)
    (v : ℚ) (q : ℚ)
    (ha : parseAmount e.amount = .ok q)
    (hp : parseEntry year e = .ok (d, t, v)) :
    v = (if e.marker ≠ "" then -q else q)
    ∧ parseAmount "1.234,56" = .ok (mkRat 123456 100)
    ∧ (mkRat 123456 100 : ℚ) = 1234.56
    ∧ parseAmount "10,00" = .ok 10
    ∧ parseEntry 2025 ⟨"03", "JAN", "x", "a", "1.234,56"⟩
        = .ok (⟨2025, 1, 3⟩, "x", -(mkRat 123456 100))
    ∧ parseEntry 2025 ⟨"03", "JAN", "x", "", "1.234,56"⟩
        = .ok (⟨2025, 1, 3⟩, "x", mkRat 123456 100) := by
  refine ⟨?_, by decide, by norm_num [mkRat], by decide, by decide, by decide⟩
  obtain ⟨m', q', _, ha', _, _, hv⟩ := parseEntry_inv year e d t v hp
  have hqq : q' = q := Except.ok.inj (ha'.symm.trans ha)
  rw [hv, hqq]

/-- C4 witness: the negation rule applied to the marked `1.234,56` amount. -/
theorem c4_amount_parsing_witness :
    (-(mkRat 123456 100) : ℚ)
        = (if ("a" : String) ≠ "" then -(mkRat 123456 100) else mkRat 123456 100)
    ∧ parseAmount "1.234,56" = .ok (mkRat 123456 100) :=
  ⟨(c4_amount_parsing 2025 ⟨"03", "JAN", "x", "a", "1.234,56"⟩ ⟨2025, 1, 3⟩ "x"
      (-(mkRat 123456 100)) (mkRat 123456 100) (by decide) (by decide)).1,
    (c4_amount_parsing 2025 ⟨"03", "JAN", "x", "a", "1.234,56"⟩ ⟨2025, 1, 3⟩ "x"
      (-(mkRat 123456 100)) (mkRat 123456 100) (by decide) (by decide)).2.1⟩

/-- C6: evaluation of the code at a matched transaction block whose 3-letter
month code is unknown: the lookup fails with the generic key-not-found
condition (a bare `KeyError` carrying the code, not a distinctly named
unknown-month error), while the twelve known codes map to 1 through 12. -/
theorem c6_month_lookup_eval :
    getEntries "01 XYZ\nmercado\nR$ 10,00" 2025 = .error (.keyError "XYZ")
    ∧ monthsLookup "XYZ" = .error (.keyError "XYZ")
    ∧ MONTHS.map Prod.snd = [1, 2, 3, 4, 5, 6, 7, 8, 9, 10, 11, 12]
    ∧ monthsLookup "JAN" = .ok 1 ∧ monthsLookup "FEV" = .ok 2
    ∧ monthsLookup "MAR" = .ok 3 ∧ monthsLookup "ABR" = .ok 4
    ∧ monthsLookup "MAI" = .ok 5 ∧ monthsLookup "JUN" = .ok 6
    ∧ monthsLookup "JUL" = .ok 7 ∧ monthsLookup "AGO" = .ok 8
    ∧ monthsLookup "SET" = .ok 9 ∧ monthsLookup "OUT" = .ok 10
    ∧ monthsLookup "NOV" = .ok 11 ∧ monthsLookup "DEZ" = .ok 12 := by
  decide

/-- C10 counterexample: on the zero-page document (at most 4 pages, whose
text yields zero parsed entries) `pdf_to_table` does not return the empty
list as the claim states: year discovery fails first, so it raises the
year-not-found error. -/
theorem c10_counterexample :
    (Document.mk [] (fun _ => [])).pages.length ≤ 4
    ∧ scanEntries (splitLines (getTextFromPdf (Document.mk [] (fun _ => [])))) = []
    ∧ getCategories (Document.mk [] (fun _ => [])) = .ok []
    ∧ pdfToTable (Document.mk [] (fun _ => [])) = .error .yearNotFound
    ∧ pdfToTable (Document.mk [] (fun _ => [])) ≠ .ok [] := by
  decide

/-- C10 (amended): for a document with at most 4 pages, category extraction
returns the empty list; provided year discovery succeeds and the entries
parse, `pdf_to_table` returns the empty list when zero entries were parsed
and raises the length-mismatch error when at least one entry was parsed. -/
theorem c10_small_document (doc : Document) (y : Int)
    (table : List (Date × String × ℚ))
    (h4 : doc.pages.length ≤ 4)
    (hy : discoverYear (getTextFromPdf doc) = .ok y)
    (he : getEntries (getTextFromPdf doc) y = .ok table) :
    getCategories doc = .ok []
    ∧ (table = [] → pdfToTable doc = .ok [])
    ∧ (table ≠ [] → pdfToTable doc = .error .zipLengthMismatch) := by
  have hx : getCategoriesAsXrefs doc = [] := by
    rw [getCategoriesAsXrefs_eq]
    rw [show TRANSACTIONS_START_PAGE = 4 from rfl, List.drop_eq_nil_of_le h4]
    rfl
  have hcat : getCategories doc = .ok [] := by
    rw [getCategories_eq, hx]
    rfl
  have hpdf := pdfToTable_unfold doc y table [] hy he hcat
  refine ⟨hcat, ?_, ?_⟩
  · intro ht
    subst ht
    rw [hpdf]
    rfl
  · intro ht
    cases table with
    | nil => exact absurd rfl ht
    | cons a as =>
      rw [hpdf]
      rfl

/-- C10 witness: a one-page document whose text has a year anchor but no
transaction block: empty category list and empty output table. -/
theorem c10_small_document_witness :
    pdfToTable (Document.mk [⟨"vencimento 2025", []⟩] (fun _ => [])) = .ok [] :=
  ((c10_small_document (Document.mk [⟨"vencimento 2025", []⟩] (fun _ => []))
      2025 [] (by decide) (by decide) (by decide)).2.1) rfl

end Extrato
